import Mathlib

/-!
Verification development for the MEL3 bingo session server.

The TypeScript sources keep all state in JS `Map`s and `Set`s; we embed a
`Map` as an association list with unique keys (`mapGet`, `mapSet`, `mapDel`)
and a `Set<string>` as a duplicate-free `List String` in insertion order.
JS numbers are modelled as exact rationals (`Rat`).  Transport endpoints
(WebSocket objects) are modelled by numeric identifiers; liveness
(`readyState === OPEN`) and send success are environment functions
`Nat → Bool`.  Timestamps irrelevant to the verified properties
(`createdAt`, `endedAt`, ISO strings) are omitted; wall-clock time used by
the rate limiter is passed explicitly as a `now : Nat` argument.
-/

/-- Lookup in an association list, modelling `Map.get`. -/
def mapGet {α : Type} : List (String × α) → String → Option α
  | [], _ => none
  | (k', v) :: rest, k => if k' = k then some v else mapGet rest k

/-- Insert or replace a binding, modelling `Map.set` (in-place update keeps
the position of an existing key, as JS iteration order does). -/
def mapSet {α : Type} : List (String × α) → String → α → List (String × α)
  | [], k, v => [(k, v)]
  | (k', v') :: rest, k, v =>
    if k' = k then (k, v) :: rest else (k', v') :: mapSet rest k v

/-- Deletion of a key, modelling `Map.delete` (JS map keys are unique, so
removing every binding of the key is the same operation). -/
def mapDel {α : Type} : List (String × α) → String → List (String × α)
  | [], _ => []
  | (k', v) :: rest, k =>
    if k' = k then mapDel rest k else (k', v) :: mapDel rest k

theorem mapGet_mapSet_self {α : Type} (m : List (String × α)) (k : String) (v : α) :
    mapGet (mapSet m k v) k = some v := by
  induction m with
  | nil => simp [mapGet, mapSet]
  | cons hd tl ih =>
    obtain ⟨k', v'⟩ := hd
    by_cases h : k' = k
    · simp [mapGet, mapSet, h]
    · simp [mapGet, mapSet, h, ih]

theorem mapGet_mapDel_self {α : Type} (m : List (String × α)) (k : String) :
    mapGet (mapDel m k) k = none := by
  induction m with
  | nil => simp [mapGet, mapDel]
  | cons hd tl ih =>
    obtain ⟨k', v'⟩ := hd
    by_cases h : k' = k
    · simp [mapDel, h, ih]
    · simp [mapGet, mapDel, h, ih]

/-- Add an element to a `Set<string>` modelled as an insertion-ordered
duplicate-free list (`Set.add` is a no-op on a present element). -/
def setAdd (s : List String) (x : String) : List String :=
  if x ∈ s then s else s ++ [x]

/-- Winner record (`interfaces.ts`), timestamp omitted. -/
structure Winner where
  playerId : String
  name : String
  pattern : String
  amount : Rat
deriving Repr, DecidableEq

/-- Player record (`interfaces.ts`); monetary fields are exact rationals,
the socket is an endpoint identifier. -/
structure Player where
  id : String
  name : String
  phone : String
  stake : Rat
  gameType : String
  payment : Rat
  wonAmount : Rat
  withdrawn : Rat
  balance : Rat
  roomId : Option String
  markedNumbers : List Int
  socket : Nat
deriving Repr, DecidableEq

/-- Room record (`interfaces.ts`), extended with the rate-limiter fields
used by `broadcaster.ts` (`lastBroadcast`, `queuedMessages`,
`broadcastTimeout`); `broadcastTimeout` is `true` while a deferred flush is
scheduled. -/
structure Room where
  id : String
  gameType : String
  stake : Rat
  players : List String
  admin : Option Nat
  active : Bool
  calledNumbers : List Int
  winners : List Winner
  lastBroadcast : Nat
  queuedMessages : List String
  broadcastTimeout : Bool
deriving Repr, DecidableEq

/-- Player store contents (`PlayerModel.players`). -/
abbrev PMap := List (String × Player)

/-- Room store contents (`RoomModel.rooms`). -/
abbrev RMap := List (String × Room)

/-- Result of `PlayerModel.processWithdrawal`: the updated store, the
success flag, and the error message if any. -/
structure WithdrawResult where
  store : PMap
  success : Bool
  error : Option String
deriving Repr, DecidableEq

/-- PlayerModel.processWithdrawal (part_002 lines 170-189): reject unknown
players and amounts above the balance; otherwise decrement `balance` and
increment `withdrawn`. -/
def processWithdrawal (store : PMap) (playerId : String) (amount : Rat) :
    WithdrawResult :=
  match mapGet store playerId with
  | none => ⟨store, false, some "Player not found"⟩
  | some p =>
    if amount > p.balance then
      ⟨store, false, some "Insufficient balance"⟩
    else
      ⟨mapSet store playerId
        { p with balance := p.balance - amount,
                 withdrawn := p.withdrawn + amount },
       true, none⟩

/-- Reply sent back to the requesting socket by `handleWithdraw`. -/
inductive WithdrawReply where
  | errorMsg (msg : String)
  | processing (amount newBalance : Rat)
deriving Repr, DecidableEq

/-- handleWithdraw (auth.ts lines 2492-2557): validates player existence,
amount positivity, balance sufficiency and account number (trimmed length
at least 5) in that order; only then mutates `balance` and `withdrawn`. -/
def handleWithdraw (store : PMap) (playerId : String) (amount : Rat)
    (accountNumber : String) : PMap × WithdrawReply :=
  match mapGet store playerId with
  | none => (store, .errorMsg "Player not found")
  | some p =>
    if amount ≤ 0 then (store, .errorMsg "Invalid amount")
    else if amount > p.balance then (store, .errorMsg "Insufficient balance")
    else if accountNumber.trim.length < 5 then
      (store, .errorMsg "Invalid account number")
    else
      let p' := { p with balance := p.balance - amount,
                         withdrawn := p.withdrawn + amount }
      (mapSet store playerId p', .processing amount p'.balance)

/-- C1: a withdrawal strictly exceeding the balance is rejected with the
insufficient-balance error and leaves the entire player store (balance,
withdrawn total and all other player state) unchanged, both in the player
store operation `processWithdrawal` and in the session handler
`handleWithdraw` (for the handler assuming the non-negative-balance
invariant, so that the amount also passes the positivity check). -/
theorem withdraw_insufficient_rejected (store : PMap) (playerId : String)
    (amount : Rat) (accountNumber : String) (p : Player)
    (hget : mapGet store playerId = some p)
    (hbal : 0 ≤ p.balance)
    (hover : amount > p.balance) :
    processWithdrawal store playerId amount =
      ⟨store, false, some "Insufficient balance"⟩ ∧
    handleWithdraw store playerId amount accountNumber =
      (store, .errorMsg "Insufficient balance") := by
  have hpos : ¬ amount ≤ 0 := by
    intro h
    exact absurd (lt_of_le_of_lt h (lt_of_le_of_lt hbal (by exact hover))) (lt_irrefl _)
  constructor
  · simp [processWithdrawal, hget, hover]
  · simp [handleWithdraw, hget, hover, hpos]

/-- Sample registered player used to instantiate hypotheses of the
withdrawal theorem. -/
def pAlice : Player :=
  { id := "alice", name := "Alice", phone := "0911000000", stake := 25,
    gameType := "75ball", payment := 50, wonAmount := 0, withdrawn := 0,
    balance := 50, roomId := none, markedNumbers := [], socket := 1 }

/-- Witness for C1 at a concrete over-balance withdrawal request. -/
theorem withdraw_insufficient_rejected_witness :
    processWithdrawal [("alice", pAlice)] "alice" 60 =
      ⟨[("alice", pAlice)], false, some "Insufficient balance"⟩ ∧
    handleWithdraw [("alice", pAlice)] "alice" 60 "12345" =
      ([("alice", pAlice)], .errorMsg "Insufficient balance") :=
  withdraw_insufficient_rejected [("alice", pAlice)] "alice" 60 "12345" pAlice
    (by rfl) (by decide) (by decide)

theorem mapGet_mapSet {α : Type} (m : List (String × α)) (k k' : String) (v : α) :
    mapGet (mapSet m k v) k' = if k = k' then some v else mapGet m k' := by
  induction m with
  | nil => by_cases h : k = k' <;> simp [mapGet, mapSet, h]
  | cons hd tl ih =>
    obtain ⟨k₀, v₀⟩ := hd
    by_cases h0 : k₀ = k
    · subst h0
      by_cases h1 : k₀ = k' <;> simp [mapGet, mapSet, h1]
    · by_cases h1 : k₀ = k'
      · subst h1
        have h2 : ¬ k = k₀ := fun h => h0 h.symm
        simp [mapGet, mapSet, h0, h2]
      · simp [mapGet, mapSet, h0, h1, ih]

/-- PlayerModel.processWin (part_002 lines 158-167): add the amount to the
cumulative won total and to the balance of a known player; unknown ids are
a no-op on the store. -/
def processWin (store : PMap) (playerId : String) (amount : Rat) : PMap :=
  match mapGet store playerId with
  | none => store
  | some p =>
    mapSet store playerId
      { p with wonAmount := p.wonAmount + amount, balance := p.balance + amount }

/-- Stake of a player id as read by the payout code, `player?.stake || 0`. -/
def stakeOf (store : PMap) (playerId : String) : Rat :=
  match mapGet store playerId with
  | some p => p.stake
  | none => 0

/-- Total stake reduce over the members of a room
(`Array.from(room.players).reduce(...)` in `calculateWinnings`). -/
def sumMemberStakes (store : PMap) (members : List String) : Rat :=
  members.foldl (fun sum pid => sum + stakeOf store pid) 0

/-- Total stake reduce over the recorded winners of a room. -/
def sumWinnerStakes (store : PMap) (ws : List Winner) : Rat :=
  ws.foldl (fun sum w => sum + stakeOf store w.playerId) 0

/-- The `room.winners.forEach` loop of `RoomModel.calculateWinnings`: for
each winner whose player is known, set the winner amount to the floored
proportional share and credit it through `processWin`; the store threads
through the iterations. -/
def distributeWinners (prizePool totalWinnerStake : Rat) :
    PMap → List Winner → PMap × List Winner
  | store, [] => (store, [])
  | store, w :: rest =>
    match mapGet store w.playerId with
    | none =>
      let res := distributeWinners prizePool totalWinnerStake store rest
      (res.1, w :: res.2)
    | some p =>
      let winAmount : Rat := ((prizePool * (p.stake / totalWinnerStake)).floor : Int)
      let w' := { w with amount := winAmount }
      let store' := processWin store w.playerId winAmount
      let res := distributeWinners prizePool totalWinnerStake store' rest
      (res.1, w' :: res.2)

/-- RoomModel.calculateWinnings (room.ts lines 175-205): early return on an
empty winner list; otherwise compute the member stake total, subtract the
3 percent service charge, and distribute the pool over the winners in
proportion to their stakes. -/
def calculateWinnings (store : PMap) (room : Room) : PMap × Room :=
  if room.winners = [] then (store, room)
  else
    let totalStake := sumMemberStakes store room.players
    let serviceCharge := totalStake * (3 / 100)
    let prizePool := totalStake - serviceCharge
    let totalWinnerStake := sumWinnerStakes store room.winners
    let res := distributeWinners prizePool totalWinnerStake store room.winners
    (res.1, { room with winners := res.2 })

/-- RoomModel.endGame (room.ts lines 161-172): only an active room ends;
the active flag drops and the winnings are calculated and distributed. -/
def endGame (players : PMap) (rooms : RMap) (roomId : String) :
    PMap × RMap × Bool :=
  match mapGet rooms roomId with
  | none => (players, rooms, false)
  | some room =>
    if room.active then
      let res := calculateWinnings players { room with active := false }
      (res.1, mapSet rooms roomId res.2, true)
    else (players, rooms, false)

/-- RoomModel.callNumber (room.ts lines 208-214): append the number to an
active room without any duplicate or range check. -/
def callNumber (rooms : RMap) (roomId : String) (n : Int) : RMap × Bool :=
  match mapGet rooms roomId with
  | none => (rooms, false)
  | some room =>
    if room.active then
      (mapSet rooms roomId
        { room with calledNumbers := room.calledNumbers ++ [n] }, true)
    else (rooms, false)

/-- Member cleanup loop of `RoomModel.remove`: clear the room affiliation
and the marked numbers of every member of the removed room. -/
def clearRoomRefs (store : PMap) (members : List String) : PMap :=
  members.foldl (fun s pid =>
    match mapGet s pid with
    | none => s
    | some p => mapSet s pid { p with roomId := none, markedNumbers := [] }) store

/-- RoomModel.remove (room.ts lines 71-85): detach all members, then delete
the room; the flag reports whether the room existed. -/
def roomRemove (players : PMap) (rooms : RMap) (roomId : String) :
    PMap × RMap × Bool :=
  match mapGet rooms roomId with
  | none => (players, mapDel rooms roomId, false)
  | some room => (clearRoomRefs players room.players, mapDel rooms roomId, true)

/-- RoomModel.removePlayer (room.ts lines 97-109): delete the member from
the room set; if the room became empty remove the whole room. -/
def removePlayer (players : PMap) (rooms : RMap) (roomId playerId : String) :
    PMap × RMap × Bool :=
  match mapGet rooms roomId with
  | none => (players, rooms, false)
  | some room =>
    let removed := room.players.contains playerId
    let room' := { room with players := room.players.erase playerId }
    let rooms' := mapSet rooms roomId room'
    if room'.players = [] then
      let res := roomRemove players rooms' roomId
      (res.1, res.2.1, removed)
    else (players, rooms', removed)

/-- RoomModel.isFull (room.ts lines 128-131): a missing room counts as
full; a stored room is full when its member count reaches `maxPlayers`. -/
def isFull (rooms : RMap) (roomId : String) (maxPlayers : Nat) : Bool :=
  match mapGet rooms roomId with
  | none => true
  | some room => decide (maxPlayers ≤ room.players.length)

/-- C10: the room-full query reports a nonexistent room as full, and a
stored room as full exactly when its membership size is at least the
capacity value. -/
theorem isFull_spec (rooms : RMap) (roomId : String) (maxPlayers : Nat) :
    (mapGet rooms roomId = none → isFull rooms roomId maxPlayers = true) ∧
    (∀ room, mapGet rooms roomId = some room →
      (isFull rooms roomId maxPlayers = true ↔ maxPlayers ≤ room.players.length)) := by
  constructor
  · intro h
    simp [isFull, h]
  · intro room h
    simp [isFull, h]

/-- Sample waiting room with two members, used as a concrete instance. -/
def rTwoMembers : Room :=
  { id := "R", gameType := "75ball", stake := 25, players := ["p1", "p2"],
    admin := none, active := false, calledNumbers := [], winners := [],
    lastBroadcast := 0, queuedMessages := [], broadcastTimeout := false }

/-- Witness for C10: a missing room id is reported full, and a stored
two-member room satisfies the capacity equivalence. -/
theorem isFull_spec_witness :
    isFull ([] : RMap) "R" 90 = true ∧
    (isFull [("R", rTwoMembers)] "R" 2 = true ↔ 2 ≤ rTwoMembers.players.length) :=
  ⟨(isFull_spec [] "R" 90).1 rfl,
   (isFull_spec [("R", rTwoMembers)] "R" 2).2 rTwoMembers rfl⟩

theorem calculateWinnings_active (store : PMap) (room : Room) :
    ((calculateWinnings store room).2).active = room.active := by
  by_cases h : room.winners = [] <;> simp [calculateWinnings, h]

/-- C2: payout distribution is idempotent per room: after one `endGame`
(which lowers the active flag and distributes the winnings), a second
`endGame` on the resulting state is a rejected no-op, so winner amounts
and balances are exactly those of the single run and nobody is paid
twice. -/
theorem endGame_idempotent (players : PMap) (rooms : RMap) (roomId : String)
    (room : Room) (hget : mapGet rooms roomId = some room)
    (_hw : room.winners ≠ []) :
    endGame (endGame players rooms roomId).1 (endGame players rooms roomId).2.1 roomId
      = ((endGame players rooms roomId).1, (endGame players rooms roomId).2.1, false) := by
  by_cases hact : room.active
  · have h1 : endGame players rooms roomId
        = ((calculateWinnings players { room with active := false }).1,
           mapSet rooms roomId (calculateWinnings players { room with active := false }).2,
           true) := by
      simp [endGame, hget, hact]
    have h2 : mapGet (mapSet rooms roomId
        (calculateWinnings players { room with active := false }).2) roomId
        = some (calculateWinnings players { room with active := false }).2 :=
      mapGet_mapSet_self rooms roomId _
    have h3 : ((calculateWinnings players { room with active := false }).2).active = false := by
      rw [calculateWinnings_active]
    rw [h1]
    simp [endGame, h2, h3]
  · have h1 : endGame players rooms roomId = (players, rooms, false) := by
      simp [endGame, hget, hact]
    rw [h1]
    simpa using h1

/-- Sample players for the concrete end-game scenario. -/
def pBob : Player :=
  { id := "bob", name := "Bob", phone := "0911000001", stake := 25,
    gameType := "75ball", payment := 25, wonAmount := 0, withdrawn := 0,
    balance := 0, roomId := some "G", markedNumbers := [1, 2, 3, 4, 5],
    socket := 2 }

def pCarol : Player :=
  { id := "carol", name := "Carol", phone := "0911000002", stake := 25,
    gameType := "75ball", payment := 25, wonAmount := 0, withdrawn := 0,
    balance := 0, roomId := some "G", markedNumbers := [], socket := 3 }

/-- Winner record for Bob before distribution (amount still zero). -/
def wBob : Winner :=
  { playerId := "bob", name := "Bob", pattern := "line", amount := 0 }

/-- Active two-member room with one recorded winner. -/
def rActive : Room :=
  { id := "G", gameType := "75ball", stake := 25, players := ["bob", "carol"],
    admin := some 9, active := true, calledNumbers := [17], winners := [wBob],
    lastBroadcast := 0, queuedMessages := [], broadcastTimeout := false }

def psGame : PMap := [("bob", pBob), ("carol", pCarol)]

def rsGame : RMap := [("G", rActive)]

/-- Witness for C2 on the concrete completed room. -/
theorem endGame_idempotent_witness :
    endGame (endGame psGame rsGame "G").1 (endGame psGame rsGame "G").2.1 "G"
      = ((endGame psGame rsGame "G").1, (endGame psGame rsGame "G").2.1, false) :=
  endGame_idempotent psGame rsGame "G" rActive rfl (by decide)

/-- Reply sent back by `handleNumberCalled`; the out-of-range message is
abbreviated (the source interpolates the bound into the text). -/
inductive NumberReply where
  | errorMsg (msg : String)
  | numberCalled (n : Int) (totalCalled : Nat)
deriving Repr, DecidableEq

/-- Legal upper bound per variant in `handleNumberCalled`
(auth.ts lines 2216-2220), defaulting to 75. -/
def maxNumberFor (gameType : String) : Int :=
  if gameType = "90ball" then 90
  else if gameType = "30ball" then 30
  else if gameType = "50ball" then 50
  else 75

/-- handleNumberCalled (auth.ts lines 2193-2253): requires an active room
and an admin sender, validates the range for the room variant and rejects
numbers already called; only then appends and broadcasts. -/
def handleNumberCalled (rooms : RMap) (isAdmin : Bool) (roomId : String)
    (n : Int) : RMap × NumberReply :=
  match mapGet rooms roomId with
  | none => (rooms, .errorMsg "Game not active")
  | some room =>
    if !room.active then (rooms, .errorMsg "Game not active")
    else if !isAdmin then (rooms, .errorMsg "Admin only action")
    else if n < 1 ∨ n > maxNumberFor room.gameType then
      (rooms, .errorMsg "Invalid number")
    else if n ∈ room.calledNumbers then (rooms, .errorMsg "Number already called")
    else
      let room' := { room with calledNumbers := room.calledNumbers ++ [n] }
      (mapSet rooms roomId room', .numberCalled n room'.calledNumbers.length)

/-- Active room that already has number 17 in its called sequence. -/
def rCalled : Room :=
  { id := "R", gameType := "75ball", stake := 25, players := ["p1"],
    admin := some 9, active := true, calledNumbers := [17], winners := [],
    lastBroadcast := 0, queuedMessages := [], broadcastTimeout := false }

def rsCalled : RMap := [("R", rCalled)]

/-- Counterexample to C3 as stated: the store-level `callNumber` accepts a
number that is already in the called sequence of an active room; the call
is not rejected, the sequence is mutated, and the resulting list has a
duplicate. -/
theorem callNumber_duplicate_not_rejected :
    (mapGet rsCalled "R").map Room.calledNumbers = some [17] ∧
    (mapGet rsCalled "R").map Room.active = some true ∧
    (callNumber rsCalled "R" 17).2 = true ∧
    (mapGet (callNumber rsCalled "R" 17).1 "R").map Room.calledNumbers = some [17, 17] ∧
    ¬ ([17, 17] : List Int).Nodup := by
  refine ⟨rfl, rfl, rfl, rfl, by decide⟩

/-- C3 (amended): the session handler `handleNumberCalled` rejects a
duplicate or out-of-range number without mutating any room, and it
preserves the no-duplicates invariant of every room called-number list;
the store-level `callNumber` has no such check (see the counterexample). -/
theorem handleNumberCalled_correct (rooms : RMap) (isAdmin : Bool)
    (roomId : String) (n : Int) (room : Room)
    (hget : mapGet rooms roomId = some room) :
    ((n ∈ room.calledNumbers ∨ n < 1 ∨ n > maxNumberFor room.gameType) →
      (handleNumberCalled rooms isAdmin roomId n).1 = rooms ∧
      ∃ msg, (handleNumberCalled rooms isAdmin roomId n).2 = NumberReply.errorMsg msg) ∧
    ((∀ rid r₀, mapGet rooms rid = some r₀ → r₀.calledNumbers.Nodup) →
      ∀ rid r', mapGet (handleNumberCalled rooms isAdmin roomId n).1 rid = some r' →
        r'.calledNumbers.Nodup) := by
  constructor
  · intro hbad
    by_cases ha : room.active
    · by_cases hadm : isAdmin
      · by_cases hrange : n < 1 ∨ n > maxNumberFor room.gameType
        · simp [handleNumberCalled, hget, ha, hadm, hrange]
        · have hdup : n ∈ room.calledNumbers := by
            rcases hbad with h | h | h
            · exact h
            · exact absurd (Or.inl h) hrange
            · exact absurd (Or.inr h) hrange
          simp [handleNumberCalled, hget, ha, hadm, hrange, hdup]
      · simp [handleNumberCalled, hget, ha, hadm]
    · simp [handleNumberCalled, hget, ha]
  · intro hinv rid r' hr'
    by_cases ha : room.active
    · by_cases hadm : isAdmin
      · by_cases hrange : n < 1 ∨ n > maxNumberFor room.gameType
        · simp [handleNumberCalled, hget, ha, hadm, hrange] at hr'
          exact hinv rid r' hr'
        · by_cases hdup : n ∈ room.calledNumbers
          · simp [handleNumberCalled, hget, ha, hadm, hrange, hdup] at hr'
            exact hinv rid r' hr'
          · simp [handleNumberCalled, hget, ha, hadm, hrange, hdup] at hr'
            rw [mapGet_mapSet] at hr'
            by_cases heq : roomId = rid
            · rw [if_pos heq] at hr'
              cases hr'
              have hn := hinv roomId room hget
              simp [List.nodup_append, hn, hdup]
            · rw [if_neg heq] at hr'
              exact hinv rid r' hr'
      · simp [handleNumberCalled, hget, ha, hadm] at hr'
        exact hinv rid r' hr'
    · simp [handleNumberCalled, hget, ha] at hr'
      exact hinv rid r' hr'

/-- Witness for C3 (amended): the duplicate call of 17 is rejected by the
handler without mutation. -/
theorem handleNumberCalled_correct_witness :
    (handleNumberCalled rsCalled true "R" 17).1 = rsCalled ∧
    ∃ msg, (handleNumberCalled rsCalled true "R" 17).2 = NumberReply.errorMsg msg :=
  (handleNumberCalled_correct rsCalled true "R" 17 rCalled rfl).1 (Or.inl (by decide))

/-- Reply of the leave-room handlers: the auth.ts handler reports the new
balance, the part_001 handler reports the room id only, and missing
player or room ends the handler silently. -/
inductive LeaveReply where
  | silent
  | roomLeft (roomId : String) (balance : Rat)
  | roomLeftPlain (roomId : String)
deriving Repr, DecidableEq

/-- handleLeaveRoom (auth.ts lines 2078-2119): when the game has not
started the stake is refunded to the balance, the member is removed and
its room affiliation cleared, and an empty room is deleted from the
store. -/
def handleLeaveRoom (players : PMap) (rooms : RMap) (playerId roomId : String) :
    PMap × RMap × LeaveReply :=
  match mapGet players playerId, mapGet rooms roomId with
  | some player, some room =>
    let player1 :=
      if !room.active then { player with balance := player.balance + player.stake }
      else player
    let player2 := { player1 with roomId := none }
    let players' := mapSet players playerId player2
    let room' := { room with players := room.players.erase playerId }
    let rooms' :=
      if room'.players = [] then mapDel rooms roomId
      else mapSet rooms roomId room'
    (players', rooms', .roomLeft roomId player2.balance)
  | _, _ => (players, rooms, .silent)

/-- handleLeaveRoom of part_001 (lines 346-375): identical removal and
empty-room deletion, but with no refund of the stake. -/
def handleLeaveRoom_v1 (players : PMap) (rooms : RMap) (playerId roomId : String) :
    PMap × RMap × LeaveReply :=
  match mapGet players playerId, mapGet rooms roomId with
  | some player, some room =>
    let player2 := { player with roomId := none }
    let players' := mapSet players playerId player2
    let room' := { room with players := room.players.erase playerId }
    let rooms' :=
      if room'.players = [] then mapDel rooms roomId
      else mapSet rooms roomId room'
    (players', rooms', .roomLeftPlain roomId)
  | _, _ => (players, rooms, .silent)

/-- C5: a departure that empties the membership destroys the room in the
same operation, both at the store level (`removePlayer`) and in both
leave handlers: a subsequent lookup of the room id finds nothing. -/
theorem empty_room_destroyed (players : PMap) (rooms : RMap)
    (roomId playerId : String) (room : Room) (player : Player)
    (hr : mapGet rooms roomId = some room)
    (hp : mapGet players playerId = some player)
    (hempty : room.players.erase playerId = []) :
    mapGet (removePlayer players rooms roomId playerId).2.1 roomId = none ∧
    mapGet (handleLeaveRoom players rooms playerId roomId).2.1 roomId = none ∧
    mapGet (handleLeaveRoom_v1 players rooms playerId roomId).2.1 roomId = none := by
  refine ⟨?_, ?_, ?_⟩
  · simp [removePlayer, roomRemove, hr, hempty, mapGet_mapSet_self, mapGet_mapDel_self]
  · simp [handleLeaveRoom, hp, hr, hempty, mapGet_mapDel_self]
  · simp [handleLeaveRoom_v1, hp, hr, hempty, mapGet_mapDel_self]

/-- Player about to leave, holding a zero balance and stake 25. -/
def pLeaver : Player :=
  { id := "p1", name := "Pat", phone := "0911000003", stake := 25,
    gameType := "75ball", payment := 25, wonAmount := 0, withdrawn := 0,
    balance := 0, roomId := some "W", markedNumbers := [7], socket := 4 }

/-- Waiting (not yet active) room whose only member is the leaver. -/
def rWaitingSolo : Room :=
  { id := "W", gameType := "75ball", stake := 25, players := ["p1"],
    admin := none, active := false, calledNumbers := [], winners := [],
    lastBroadcast := 0, queuedMessages := [], broadcastTimeout := false }

def psLeave : PMap := [("p1", pLeaver)]

def rsLeave : RMap := [("W", rWaitingSolo)]

/-- Witness for C5 on the concrete single-member room. -/
theorem empty_room_destroyed_witness :
    mapGet (removePlayer psLeave rsLeave "W" "p1").2.1 "W" = none ∧
    mapGet (handleLeaveRoom psLeave rsLeave "p1" "W").2.1 "W" = none ∧
    mapGet (handleLeaveRoom_v1 psLeave rsLeave "p1" "W").2.1 "W" = none :=
  empty_room_destroyed psLeave rsLeave "W" "p1" rWaitingSolo pLeaver rfl rfl (by decide)

/-- Counterexample to C6 as stated: the part_001 leave handler gives no
refund when a player leaves a room whose game has not started; the
balance stays 0 although the claim demands it to grow by the stake 25. -/
theorem handleLeaveRoom_v1_no_refund :
    (mapGet psLeave "p1").map Player.balance = some 0 ∧
    (mapGet psLeave "p1").map Player.stake = some 25 ∧
    (mapGet rsLeave "W").map Room.active = some false ∧
    (mapGet (handleLeaveRoom_v1 psLeave rsLeave "p1" "W").1 "p1").map Player.balance
      = some 0 ∧
    (0 : Rat) ≠ 0 + 25 := by
  refine ⟨rfl, rfl, rfl, rfl, by norm_num⟩

/-- C6 (amended): the auth.ts leave handler refunds exactly the stake when
the game is not yet active and leaves the balance unchanged when it is
active; the part_001 leave handler performs no refund in either case (see
the counterexample). -/
theorem handleLeaveRoom_refund (players : PMap) (rooms : RMap)
    (playerId roomId : String) (player : Player) (room : Room)
    (hp : mapGet players playerId = some player)
    (hr : mapGet rooms roomId = some room) :
    (room.active = false →
      (mapGet (handleLeaveRoom players rooms playerId roomId).1 playerId).map Player.balance
        = some (player.balance + player.stake)) ∧
    (room.active = true →
      (mapGet (handleLeaveRoom players rooms playerId roomId).1 playerId).map Player.balance
        = some player.balance) := by
  constructor <;> intro ha <;>
    simp [handleLeaveRoom, hp, hr, ha, mapGet_mapSet_self]

/-- Witness for C6 (amended): leaving the concrete waiting room refunds
the stake of 25 onto the zero balance. -/
theorem handleLeaveRoom_refund_witness :
    (mapGet (handleLeaveRoom psLeave rsLeave "p1" "W").1 "p1").map Player.balance
      = some (0 + 25 : Rat) :=
  (handleLeaveRoom_refund psLeave rsLeave "p1" "W" pLeaver rWaitingSolo rfl rfl).1 rfl

theorem stakeOf_processWin (s : PMap) (q : String) (a : Rat) (pid : String) :
    stakeOf (processWin s q a) pid = stakeOf s pid := by
  unfold processWin
  cases hq : mapGet s q with
  | none => rfl
  | some p =>
    unfold stakeOf
    rw [mapGet_mapSet]
    by_cases h : q = pid
    · subst h
      rw [if_pos rfl, hq]
    · rw [if_neg h]

theorem processWin_pres (s : PMap) (q : String) (a : Rat) (pid : String)
    (p : Player) (h : mapGet s pid = some p) :
    ∃ p', mapGet (processWin s q a) pid = some p' := by
  unfold processWin
  cases hq : mapGet s q with
  | none => exact ⟨p, h⟩
  | some r =>
    rw [mapGet_mapSet]
    by_cases hqp : q = pid
    · rw [if_pos hqp]
      exact ⟨_, rfl⟩
    · rw [if_neg hqp]
      exact ⟨p, h⟩

theorem foldl_add_map_sum {α : Type} (f : α → Rat) (l : List α) (init : Rat) :
    l.foldl (fun s x => s + f x) init = init + (l.map f).sum := by
  induction l generalizing init with
  | nil => simp
  | cons a t ih =>
    simp only [List.foldl_cons, List.map_cons, List.sum_cons, ih]
    ring

/-- Floored proportional share as the source computes it:
`Math.floor(prizePool * (player.stake / totalWinnerStake))`. -/
def codeShare (pool tws : Rat) (store : PMap) (pid : String) : Rat :=
  ((pool * (stakeOf store pid / tws)).floor : Int)

theorem codeShare_processWin (pool tws : Rat) (s : PMap) (q : String)
    (a : Rat) (pid : String) :
    codeShare pool tws (processWin s q a) pid = codeShare pool tws s pid := by
  unfold codeShare
  rw [stakeOf_processWin]

theorem distributeWinners_spec (pool tws : Rat) (store : PMap) (ws : List Winner)
    (hpres : ∀ w ∈ ws, ∃ p, mapGet store w.playerId = some p) :
    distributeWinners pool tws store ws =
      (ws.foldl (fun s w => processWin s w.playerId (codeShare pool tws store w.playerId)) store,
       ws.map (fun w => { w with amount := codeShare pool tws store w.playerId })) := by
  induction ws generalizing store with
  | nil => simp [distributeWinners]
  | cons w rest ih =>
    obtain ⟨p, hp⟩ := hpres w (List.mem_cons_self w rest)
    have hstake : stakeOf store w.playerId = p.stake := by simp [stakeOf, hp]
    have hamt : ((pool * (p.stake / tws)).floor : Int) = (codeShare pool tws store w.playerId : Rat) := by
      rw [codeShare, hstake]
    have hpres' : ∀ v ∈ rest,
        ∃ q, mapGet (processWin store w.playerId (codeShare pool tws store w.playerId)) v.playerId
          = some q := by
      intro v hv
      obtain ⟨q, hq⟩ := hpres v (List.mem_cons_of_mem w hv)
      exact processWin_pres _ _ _ _ q hq
    simp only [distributeWinners, hp, hamt, ih _ hpres', codeShare_processWin,
      List.foldl_cons, List.map_cons]

/-- Reference share from the spec wording: the prize pool is the member
stake total minus the fixed 3 percent service charge, and each winner
share is the floor of the pool times the winner stake divided by the sum
of the winner stakes. -/
def specShare (store : PMap) (room : Room) (pid : String) : Rat :=
  ((((room.players.map (stakeOf store)).sum
      - (room.players.map (stakeOf store)).sum * (3 / 100))
    * stakeOf store pid
    / (room.winners.map (fun w => stakeOf store w.playerId)).sum).floor : Int)

/-- Reference payout from the spec wording: with zero winners nothing
changes; otherwise every recorded winner gets its floored proportional
share written into the winner record and credited through the additive
win-processing operation of the player store. -/
def specPayout (store : PMap) (room : Room) : PMap × Room :=
  if room.winners = [] then (store, room)
  else
    (room.winners.foldl
      (fun s w => processWin s w.playerId (specShare store room w.playerId)) store,
     { room with
        winners := room.winners.map (fun w => { w with amount := specShare store room w.playerId }) })

/-- C4: the payout computation of `calculateWinnings` coincides with the
reference definition written from the spec, provided every recorded
winner is a registered player; in particular an empty winner list changes
no balances. -/
theorem calculateWinnings_matches_spec (store : PMap) (room : Room)
    (hpres : ∀ w ∈ room.winners, ∃ p, mapGet store w.playerId = some p) :
    calculateWinnings store room = specPayout store room := by
  by_cases hw : room.winners = []
  · simp [calculateWinnings, specPayout, hw]
  · have hsum1 : sumMemberStakes store room.players
        = (room.players.map (stakeOf store)).sum := by
      simpa using foldl_add_map_sum (stakeOf store) room.players 0
    have hsum2 : sumWinnerStakes store room.winners
        = (room.winners.map (fun w => stakeOf store w.playerId)).sum := by
      simpa using foldl_add_map_sum (fun w => stakeOf store w.playerId) room.winners 0
    have hshare : ∀ pid,
        codeShare
          (sumMemberStakes store room.players
            - sumMemberStakes store room.players * (3 / 100))
          (sumWinnerStakes store room.winners) store pid
        = specShare store room pid := by
      intro pid
      unfold codeShare specShare
      rw [hsum1, hsum2, mul_div_assoc]
    simp only [calculateWinnings, specPayout, if_neg hw,
      distributeWinners_spec _ _ _ _ hpres, hshare]

/-- Witness for C4 on the concrete completed room with one winner. -/
theorem calculateWinnings_matches_spec_witness :
    calculateWinnings psGame rActive = specPayout psGame rActive :=
  calculateWinnings_matches_spec psGame rActive
    (by
      intro w hmem
      have hw : w = wBob := by simpa [rActive] using hmem
      subst hw
      exact ⟨pBob, rfl⟩)

/-- The member loop of the room broadcast: for each member of the room, an
open socket is attempted and a throwing send is caught per endpoint so
the loop continues with the rest; the result lists the endpoints that
received the message, in member order. -/
def deliverMembers (players : PMap) (live sendOk : Nat → Bool) :
    List String → List Nat
  | [] => []
  | pid :: rest =>
    match mapGet players pid with
    | some p =>
      if live p.socket && sendOk p.socket then
        p.socket :: deliverMembers players live sendOk rest
      else deliverMembers players live sendOk rest
    | none => deliverMembers players live sendOk rest

/-- broadcastToRoom of broadcaster.ts (lines 24-44): fans out to the open
member sockets only; the bound admin endpoint is not part of the
audience. -/
def broadcastToRoom_svc (players : PMap) (rooms : RMap) (live sendOk : Nat → Bool)
    (roomId : String) : List Nat :=
  match mapGet rooms roomId with
  | none => []
  | some room => deliverMembers players live sendOk room.players

/-- broadcastToRoom of auth.ts (lines 1393-1418): the open member sockets
followed by the bound admin endpoint when it is open; every send failure
is caught individually. -/
def broadcastToRoom (players : PMap) (rooms : RMap) (live sendOk : Nat → Bool)
    (roomId : String) : List Nat :=
  match mapGet rooms roomId with
  | none => []
  | some room =>
    let memberSends := deliverMembers players live sendOk room.players
    match room.admin with
    | some a => if live a && sendOk a then memberSends ++ [a] else memberSends
    | none => memberSends

theorem deliverMembers_mem (players : PMap) (live sendOk : Nat → Bool)
    (members : List String) (pid : String) (p : Player)
    (hmem : pid ∈ members) (hp : mapGet players pid = some p)
    (hlive : live p.socket = true) (hok : sendOk p.socket = true) :
    p.socket ∈ deliverMembers players live sendOk members := by
  induction members with
  | nil => cases hmem
  | cons q rest ih =>
    rcases List.mem_cons.mp hmem with h | h
    · subst h
      simp [deliverMembers, hp, hlive, hok]
    · have hrest := ih h
      cases hq : mapGet players q with
      | none => simpa [deliverMembers, hq] using hrest
      | some r =>
        by_cases hb : live r.socket && sendOk r.socket
        · simp [deliverMembers, hq, hb]
          exact Or.inr hrest
        · simpa [deliverMembers, hq, hb] using hrest

/-- C7 (amended): the auth.ts room broadcast delivers to every member
whose endpoint is open and whose send succeeds, and to the bound admin
endpoint under the same conditions, regardless of failures at any other
endpoint; the broadcaster.ts variant reaches the members only (see the
counterexample for the missing admin delivery). -/
theorem broadcastToRoom_audience (players : PMap) (rooms : RMap)
    (live sendOk : Nat → Bool) (roomId : String) (room : Room)
    (hget : mapGet rooms roomId = some room) :
    (∀ pid p, pid ∈ room.players → mapGet players pid = some p →
      live p.socket = true → sendOk p.socket = true →
      p.socket ∈ broadcastToRoom players rooms live sendOk roomId) ∧
    (∀ a, room.admin = some a → live a = true → sendOk a = true →
      a ∈ broadcastToRoom players rooms live sendOk roomId) := by
  constructor
  · intro pid p hmem hp hlive hok
    have h := deliverMembers_mem players live sendOk room.players pid p hmem hp hlive hok
    simp only [broadcastToRoom, hget]
    cases hadm : room.admin with
    | none => simpa using h
    | some a =>
      by_cases hb : live a && sendOk a
      · simp [hb]
        exact Or.inl h
      · simpa [hb] using h
  · intro a hadm hlive hok
    simp [broadcastToRoom, hget, hadm, hlive, hok]

/-- Room member used in the broadcast scenarios. -/
def pMember : Player :=
  { id := "m", name := "Mo", phone := "0911000004", stake := 25,
    gameType := "75ball", payment := 25, wonAmount := 0, withdrawn := 0,
    balance := 0, roomId := some "B", markedNumbers := [], socket := 2 }

/-- Room with one member (socket 2) and a bound admin endpoint 9. -/
def rBcast : Room :=
  { id := "B", gameType := "75ball", stake := 25, players := ["m"],
    admin := some 9, active := true, calledNumbers := [], winners := [],
    lastBroadcast := 0, queuedMessages := [], broadcastTimeout := false }

def psBcast : PMap := [("m", pMember)]

def rsBcast : RMap := [("B", rBcast)]

/-- Counterexample to C7 as stated: with every endpoint open and every
send succeeding, the broadcaster.ts room broadcast reaches only the
member socket 2 and never the bound admin endpoint 9. -/
theorem broadcastToRoom_svc_omits_admin :
    (mapGet rsBcast "B").map Room.admin = some (some 9) ∧
    broadcastToRoom_svc psBcast rsBcast (fun _ => true) (fun _ => true) "B" = [2] ∧
    (9 : Nat) ∉ broadcastToRoom_svc psBcast rsBcast (fun _ => true) (fun _ => true) "B" := by
  refine ⟨rfl, rfl, by decide⟩

/-- Witness for C7 (amended): both the member socket and the admin
endpoint receive the auth.ts broadcast. -/
theorem broadcastToRoom_audience_witness :
    (2 : Nat) ∈ broadcastToRoom psBcast rsBcast (fun _ => true) (fun _ => true) "B" ∧
    (9 : Nat) ∈ broadcastToRoom psBcast rsBcast (fun _ => true) (fun _ => true) "B" :=
  ⟨(broadcastToRoom_audience psBcast rsBcast (fun _ => true) (fun _ => true) "B" rBcast
      rfl).1 "m" pMember (by decide) rfl rfl rfl,
   (broadcastToRoom_audience psBcast rsBcast (fun _ => true) (fun _ => true) "B" rBcast
      rfl).2 9 rfl rfl rfl⟩

/-- Immediate result of `rateLimitedBroadcast`: either the message went
out at once, or it was queued (with the flag telling whether a new
deferred flush was scheduled by this call), or the room does not exist. -/
inductive BcastOutcome where
  | noRoom
  | sentNow (msg : String)
  | queued (scheduledFlush : Bool)
deriving Repr, DecidableEq

/-- What a deferred flush sends: nothing, one message directly, or one
composite batch envelope with all queued messages. -/
inductive FlushOutcome where
  | nothing
  | sentOne (msg : String)
  | sentBatch (msgs : List String)
deriving Repr, DecidableEq

/-- rateLimitedBroadcast (broadcaster.ts lines 414-448): inside the
minimum interval the message joins the room queue and a deferred flush is
scheduled only if none is pending; outside the interval the message is
broadcast immediately and the last-broadcast clock is updated. -/
def rateLimitedBroadcast (rooms : RMap) (roomId msg : String)
    (minInterval now : Nat) : RMap × BcastOutcome :=
  match mapGet rooms roomId with
  | none => (rooms, .noRoom)
  | some room =>
    if now - room.lastBroadcast < minInterval then
      let schedule := !room.broadcastTimeout
      let room' := { room with queuedMessages := room.queuedMessages ++ [msg],
                               broadcastTimeout := true }
      (mapSet rooms roomId room', .queued schedule)
    else
      (mapSet rooms roomId { room with lastBroadcast := now }, .sentNow msg)

/-- processQueuedMessages (broadcaster.ts lines 451-472): the deferred
flush clears the queue and the pending flag and sends the single queued
message directly, or several of them as one batch envelope in arrival
order. -/
def processQueuedMessages (rooms : RMap) (roomId : String) (now : Nat) :
    RMap × FlushOutcome :=
  match mapGet rooms roomId with
  | none => (rooms, .nothing)
  | some room =>
    match room.queuedMessages with
    | [] => (mapSet rooms roomId { room with broadcastTimeout := false }, .nothing)
    | [m] =>
      (mapSet rooms roomId
        { room with queuedMessages := [], broadcastTimeout := false,
                    lastBroadcast := now },
       .sentOne m)
    | m1 :: m2 :: t =>
      (mapSet rooms roomId
        { room with queuedMessages := [], broadcastTimeout := false,
                    lastBroadcast := now },
       .sentBatch (m1 :: m2 :: t))

/-- Events carried by a flush outcome (the batch envelope contents, or the
single direct message). -/
def flushEvents : FlushOutcome → List String
  | .nothing => []
  | .sentOne m => [m]
  | .sentBatch ms => ms

/-- C8: a broadcast inside the minimum interval is appended to the queue
(never dropped), a new deferred flush is scheduled only when none is
pending, and the flush of a nonempty queue emits exactly the queued
messages in arrival order: one message directly or several as a single
batch envelope, leaving an empty queue and no pending flush. -/
theorem rateLimitedBroadcast_queues (rooms : RMap) (roomId msg : String)
    (minInterval now : Nat) (room : Room)
    (hget : mapGet rooms roomId = some room)
    (hin : now - room.lastBroadcast < minInterval) :
    (rateLimitedBroadcast rooms roomId msg minInterval now).2
        = BcastOutcome.queued (!room.broadcastTimeout) ∧
    (mapGet (rateLimitedBroadcast rooms roomId msg minInterval now).1 roomId).map
        Room.queuedMessages = some (room.queuedMessages ++ [msg]) ∧
    (mapGet (rateLimitedBroadcast rooms roomId msg minInterval now).1 roomId).map
        Room.broadcastTimeout = some true ∧
    (∀ rooms2 room2, mapGet rooms2 roomId = some room2 →
      room2.queuedMessages ≠ [] →
      flushEvents (processQueuedMessages rooms2 roomId now).2 = room2.queuedMessages ∧
      (∀ m, room2.queuedMessages = [m] →
        (processQueuedMessages rooms2 roomId now).2 = FlushOutcome.sentOne m) ∧
      (1 < room2.queuedMessages.length →
        (processQueuedMessages rooms2 roomId now).2
          = FlushOutcome.sentBatch room2.queuedMessages) ∧
      (mapGet (processQueuedMessages rooms2 roomId now).1 roomId).map
          Room.queuedMessages = some [] ∧
      (mapGet (processQueuedMessages rooms2 roomId now).1 roomId).map
          Room.broadcastTimeout = some false) := by
  refine ⟨?_, ?_, ?_, ?_⟩
  · simp [rateLimitedBroadcast, hget, hin]
  · simp [rateLimitedBroadcast, hget, hin, mapGet_mapSet_self]
  · simp [rateLimitedBroadcast, hget, hin, mapGet_mapSet_self]
  · intro rooms2 room2 hget2 hne
    cases hq : room2.queuedMessages with
    | nil => exact absurd hq hne
    | cons m1 rest =>
      cases rest with
      | nil =>
        refine ⟨?_, ?_, ?_, ?_, ?_⟩ <;>
          simp [processQueuedMessages, hget2, hq, mapGet_mapSet_self, flushEvents]
      | cons m2 t =>
        refine ⟨?_, ?_, ?_, ?_, ?_⟩ <;>
          simp [processQueuedMessages, hget2, hq, mapGet_mapSet_self, flushEvents]

/-- Room inside the rate-limit interval with an empty queue. -/
def rRate : Room :=
  { id := "Q", gameType := "75ball", stake := 25, players := ["m"],
    admin := none, active := true, calledNumbers := [], winners := [],
    lastBroadcast := 100, queuedMessages := [], broadcastTimeout := false }

def rsRate : RMap := [("Q", rRate)]

/-- Room with two accumulated queued messages awaiting the flush. -/
def rQueue2 : Room :=
  { id := "Q", gameType := "75ball", stake := 25, players := ["m"],
    admin := none, active := true, calledNumbers := [], winners := [],
    lastBroadcast := 100, queuedMessages := ["a", "b"], broadcastTimeout := true }

def rsQueue2 : RMap := [("Q", rQueue2)]

/-- Witness for C8: at time 150 with last broadcast 100 and interval 100
the call is queued and schedules the flush; flushing a two-message queue
sends one batch with both events in order. -/
theorem rateLimitedBroadcast_queues_witness :
    (rateLimitedBroadcast rsRate "Q" "e2" 100 150).2 = BcastOutcome.queued true ∧
    flushEvents (processQueuedMessages rsQueue2 "Q" 250).2 = rQueue2.queuedMessages ∧
    (processQueuedMessages rsQueue2 "Q" 250).2
      = FlushOutcome.sentBatch rQueue2.queuedMessages :=
  have h := rateLimitedBroadcast_queues rsRate "Q" "e2" 100 150 rRate rfl (by decide)
  have h2 := h.2.2.2 rsQueue2 rQueue2 rfl (by decide)
  ⟨h.1, h2.1, h2.2.2.1 (by decide)⟩

/-- Global server state of auth.ts: the player and room maps and the set
of connected admin endpoints. -/
structure ServerState where
  players : PMap
  rooms : RMap
  adminConnections : List Nat
deriving Repr, DecidableEq

/-- Connection attributes carried by a WebSocket in auth.ts. -/
structure Conn where
  id : Nat
  isAdmin : Bool
  playerId : Option String
deriving Repr, DecidableEq

/-- handlePlayerDisconnect (auth.ts lines 1495-1529): remove the player
from its room (deleting the room if it empties) and drop the player from
the store. -/
def handlePlayerDisconnect (st : ServerState) (playerId : String) : ServerState :=
  match mapGet st.players playerId with
  | none => st
  | some player =>
    let rooms' :=
      match player.roomId with
      | none => st.rooms
      | some rid =>
        match mapGet st.rooms rid with
        | none => st.rooms
        | some room =>
          let room' := { room with players := room.players.erase playerId }
          if room'.players = [] then mapDel st.rooms rid
          else mapSet st.rooms rid room'
    { players := mapDel st.players playerId, rooms := rooms',
      adminConnections := st.adminConnections }

/-- handleWebSocketClose (auth.ts lines 2631-2646): an admin endpoint is
only removed from the admin-connection set and the handler returns; a
player endpoint goes through the disconnect reconciliation. -/
def handleWebSocketClose (st : ServerState) (ws : Conn) : ServerState :=
  if ws.isAdmin then
    { st with adminConnections := st.adminConnections.erase ws.id }
  else
    match ws.playerId with
    | none => st
    | some pid => handlePlayerDisconnect st pid

/-- C9 (amended): closing an admin endpoint does not destroy any room and
changes no room state at all: membership, called numbers, winners, active
flag and even the admin binding stay exactly as they were (the binding is
not cleared); the only effect is removing the endpoint from the global
admin-connection set. -/
theorem adminClose_frame (st : ServerState) (ws : Conn)
    (hadmin : ws.isAdmin = true) :
    (handleWebSocketClose st ws).rooms = st.rooms ∧
    (handleWebSocketClose st ws).players = st.players ∧
    (handleWebSocketClose st ws).adminConnections
      = st.adminConnections.erase ws.id := by
  simp [handleWebSocketClose, hadmin]

/-- Server state with one room bound to admin endpoint 7. -/
def rAdmin7 : Room :=
  { id := "A", gameType := "75ball", stake := 25, players := ["m"],
    admin := some 7, active := true, calledNumbers := [], winners := [],
    lastBroadcast := 0, queuedMessages := [], broadcastTimeout := false }

def stAdmin : ServerState :=
  { players := [("m", pMember)], rooms := [("A", rAdmin7)],
    adminConnections := [7] }

/-- Counterexample to C9 as stated: after the bound admin endpoint 7
disconnects, the room still holds the binding to endpoint 7; the binding
is not cleared as the claim asserts. -/
theorem adminClose_binding_not_cleared :
    (mapGet stAdmin.rooms "A").map Room.admin = some (some 7) ∧
    (mapGet (handleWebSocketClose stAdmin ⟨7, true, none⟩).rooms "A").map Room.admin
      = some (some 7) ∧
    some (some 7) ≠ some (none : Option Nat) := by
  refine ⟨rfl, rfl, by decide⟩

/-- Witness for C9 (amended) on the concrete state with admin endpoint 7. -/
theorem adminClose_frame_witness :
    (handleWebSocketClose stAdmin ⟨7, true, none⟩).rooms = stAdmin.rooms ∧
    (handleWebSocketClose stAdmin ⟨7, true, none⟩).players = stAdmin.players ∧
    (handleWebSocketClose stAdmin ⟨7, true, none⟩).adminConnections
      = stAdmin.adminConnections.erase 7 :=
  adminClose_frame stAdmin ⟨7, true, none⟩ rfl
